import Mathlib

/-!
Shallow embedding of the Church-Brain operations execution core.

Source files embedded here:
  * `src/allocator/allocator.py`  — reservation engine (room_hold / room_confirm / adjust_hold)
  * `src/state/models.py`         — RoomHold, ShardLock, VolunteerRequest, EventLogEntry
  * `src/state/repository.py`     — InMemoryDB (room-hold store, shard locks, idempotency)
  * `src/state/locks.py`          — acquire / release
  * `src/state/idempotency.py`    — check_and_record
  * `src/state/event_log.py`      — log
  * `src/authz/engine.py`         — POLICY / can
  * `src/laneB/verbs/registry.py` — run_verb, AssignVerb
  * `src/laneB/executor/executor.py` — Executor.execute

Timestamps (`datetime`) are modelled as `Nat`; the current time is passed
explicitly where Python calls `datetime.utcnow()`.  Python dicts keyed by id
are modelled either as association lists (when the code iterates over the
values, as the room-hold store does) or as functions `String → Option _`
(when the code only gets/sets by key).  Opaque payloads (`Any`) are modelled
as `String`.
-/

namespace ChurchBrain

/-! ### Reservation engine (`src/allocator/allocator.py`, `src/state/models.py`) -/

inductive HoldStatus where
  | hold
  | confirmed
  | canceled
deriving DecidableEq, Repr

/-- `RoomHold` dataclass from `src/state/models.py` (the Python `end` field is
written `«end»`; `request_id` is an unused optional link and is elided). -/
structure RoomHold where
  id : String
  tenant_id : String
  room_id : String
  start : Nat
  «end» : Nat
  status : HoldStatus
  expires_at : Nat
deriving DecidableEq, Repr

/-- `RoomHold.is_expired`: `self.status == "HOLD" and _now() > self.expires_at`. -/
def RoomHold.is_expired (h : RoomHold) (now : Nat) : Bool :=
  h.status == .hold && decide (now > h.expires_at)

/-- `_overlaps` from `src/allocator/allocator.py`:
`a_start < b_end and b_start < a_end`. -/
def overlaps (a_start a_end b_start b_end : Nat) : Bool :=
  decide (a_start < b_end) && decide (b_start < a_end)

/-- The room-hold store: the values of `InMemoryDB.room_holds` (a dict keyed
by `hold.id`); id-uniqueness of the dict is carried as `NodupIds` where
needed. -/
abbrev RoomStore := List RoomHold

/-- `InMemoryDB.get_active_room_holds`. -/
def get_active_room_holds (now : Nat) (st : RoomStore) (tenant_id room_id : String) :
    RoomStore :=
  st.filter fun h =>
    h.tenant_id == tenant_id && h.room_id == room_id &&
      (h.status == .hold || h.status == .confirmed) && !(h.is_expired now)

/-- `InMemoryDB.save_room_hold`: dict insert-or-replace keyed by `hold.id`. -/
def save_room_hold (st : RoomStore) (hold : RoomHold) : RoomStore :=
  if st.any (fun h => h.id == hold.id) then
    st.map (fun h => if h.id == hold.id then hold else h)
  else
    st ++ [hold]

/-- `InMemoryDB.room_holds.get(hold_id)`. -/
def get_room_hold (st : RoomStore) (hold_id : String) : Option RoomHold :=
  st.find? (fun h => h.id == hold_id)

def HOLD_TTL_SECONDS : Nat := 120

/-- The fresh HOLD record created by `room_hold`:
`RoomHold(id=new_id(), ..., status="HOLD", expires_at=now+120s)`. -/
def new_hold (now : Nat) (newId tenant_id room_id : String)
    (start «end» : Nat) : RoomHold :=
  { id := newId, tenant_id := tenant_id, room_id := room_id,
    start := start, «end» := «end», status := .hold,
    expires_at := now + HOLD_TTL_SECONDS }

/-- `room_hold` from `src/allocator/allocator.py`.  `new_id()` is passed in as
`newId`.  Returns the updated store together with `(ok, hold, reason)`. -/
def room_hold (now : Nat) (newId : String) (st : RoomStore)
    (tenant_id room_id : String) (start «end» : Nat) :
    RoomStore × Bool × Option RoomHold × String :=
  let active := get_active_room_holds now st tenant_id room_id
  if active.any (fun h => h.status == .confirmed &&
      overlaps start «end» h.start h.«end») then
    (st, false, none, "conflict_confirmed")
  else
    let hold := new_hold now newId tenant_id room_id start «end»
    (save_room_hold st hold, true, some hold, "ok")

/-- `room_confirm` from `src/allocator/allocator.py`. -/
def room_confirm (now : Nat) (st : RoomStore) (hold_id : String) :
    RoomStore × Bool × String :=
  match get_room_hold st hold_id with
  | none => (st, false, "not_found")
  | some hold =>
    if hold.is_expired now then
      (save_room_hold st { hold with status := .canceled }, false, "expired")
    else
      let active := get_active_room_holds now st hold.tenant_id hold.room_id
      if active.any (fun h => h.id != hold.id && h.status == .confirmed &&
          overlaps hold.start hold.«end» h.start h.«end») then
        (st, false, "race_conflict")
      else
        (save_room_hold st { hold with status := .confirmed }, true, "ok")

/-- `adjust_hold` from `src/allocator/allocator.py`. -/
def adjust_hold (now : Nat) (st : RoomStore) (hold_id : String)
    (new_start new_end : Nat) : RoomStore × Bool × String :=
  match get_room_hold st hold_id with
  | none => (st, false, "not_found")
  | some hold =>
    if !(hold.status == .hold || hold.status == .confirmed) then
      (st, false, "invalid_state")
    else if (get_active_room_holds now st hold.tenant_id hold.room_id).any
        (fun h => h.id != hold.id && h.status == .confirmed &&
          overlaps new_start new_end h.start h.«end») then
      (st, false, "conflict_confirmed")
    else
      (save_room_hold st { hold with start := new_start, «end» := new_end },
        true, "ok")

/-- The spec invariant: no two CONFIRMED holds on the same
`(tenant_id, room_id)` have overlapping `[start, end)` intervals. -/
def ConfirmedNonOverlap (st : RoomStore) : Prop :=
  ∀ a ∈ st, ∀ b ∈ st, a.id ≠ b.id → a.status = .confirmed →
    b.status = .confirmed → a.tenant_id = b.tenant_id →
    a.room_id = b.room_id →
    overlaps a.start a.«end» b.start b.«end» = false

instance (st : RoomStore) : Decidable (ConfirmedNonOverlap st) := by
  unfold ConfirmedNonOverlap; infer_instance

/-- The room-hold dict keys its records by id, so the modelled value list has
pairwise-distinct ids. -/
def NodupIds (st : RoomStore) : Prop := (st.map (fun h => h.id)).Nodup

instance (st : RoomStore) : Decidable (NodupIds st) := by
  unfold NodupIds; infer_instance

/-! ### Shard locks (`src/state/repository.py`, `src/state/locks.py`,
`src/state/models.py`) -/

/-- `ShardLock` dataclass from `src/state/models.py`. -/
structure ShardLock where
  shard : String
  owner : String
  acquired_at : Nat
  expires_at : Nat
deriving DecidableEq, Repr

/-- `ShardLock.is_expired`: `_now() > self.expires_at`. -/
def ShardLock.is_expired (l : ShardLock) (now : Nat) : Bool :=
  decide (now > l.expires_at)

/-- `InMemoryDB.shard_locks`: a dict keyed by shard, only ever read and
written by key. -/
abbrev LockState := String → Option ShardLock

/-- `InMemoryDB.acquire_shard`. -/
def acquire_shard (now : Nat) (st : LockState) (shard owner : String)
    (ttl_seconds : Nat) : LockState × Bool :=
  if (match st shard with
      | some existing => !(existing.is_expired now) && existing.owner != owner
      | none => false) then
    (st, false)
  else
    (fun k => if k = shard then
        some { shard := shard, owner := owner, acquired_at := now,
               expires_at := now + ttl_seconds }
      else st k, true)

/-- `InMemoryDB.release_shard`. -/
def release_shard (st : LockState) (shard owner : String) : LockState :=
  match st shard with
  | some existing =>
    if existing.owner == owner then (fun k => if k = shard then none else st k)
    else st
  | none => st

/-- `locks.acquire` (`src/state/locks.py`) with its default `ttl_seconds=30`,
as called by the executor. -/
def locks_acquire (now : Nat) (st : LockState) (shard owner : String) :
    LockState × Bool :=
  acquire_shard now st shard owner 30

/-- `locks.release` (`src/state/locks.py`). -/
def locks_release (st : LockState) (shard owner : String) : LockState :=
  release_shard st shard owner

/-! ### Idempotency ledger (`src/state/idempotency.py`) -/

/-- String-keyed opaque maps (Python `dict`/`Any` payloads). -/
abbrev Args := List (String × String)

/-- `InMemoryDB.idempotency`, keyed by idempotency key. -/
abbrev IdempotencyLedger := String → Option Args

/-- `InMemoryDB.has_idempotency_key`: `key in self.idempotency`. -/
def has_idempotency_key (led : IdempotencyLedger) (key : String) : Bool :=
  (led key).isSome

/-- `check_and_record` from `src/state/idempotency.py`.  `data or {}` stores
the given dict when truthy and `{}` otherwise; both cases give `data.getD []`
since an empty dict equals `{}`. -/
def check_and_record (led : IdempotencyLedger) (key : String)
    (data : Option Args) : IdempotencyLedger × Bool :=
  if has_idempotency_key led key then
    (led, false)
  else
    (fun k => if k = key then some (data.getD []) else led k, true)

/-! ### Audit log and authorization (`src/state/event_log.py`,
`src/authz/engine.py`) -/

/-- `EventLogEntry` from `src/state/models.py`.  The `id` (a fresh uuid), the
`timestamp` and the free-form `data` payload are elided: no claim depends on
them, only on which records are appended. -/
structure EventLogEntry where
  correlation_id : String
  actor : String
  tenant_id : String
  shard : Option String
  kind : String
deriving DecidableEq, Repr

/-- `InMemoryDB.event_log`, an append-only list. -/
abbrev EventLog := List EventLogEntry

/-- `log` from `src/state/event_log.py` composed with
`InMemoryDB.append_event`. -/
def log (kind correlation_id actor tenant_id : String) (shard : Option String)
    (elog : EventLog) : EventLog :=
  elog ++ [{ correlation_id := correlation_id, actor := actor,
             tenant_id := tenant_id, shard := shard, kind := kind }]

/-- `POLICY` from `src/authz/engine.py`. -/
def POLICY : List (String × List String) :=
  [("volunteer.manage", ["pastor", "staff"]),
   ("room.allocate", ["pastor", "staff"]),
   ("message.send", ["pastor", "staff", "intern"]),
   ("planning.create", ["pastor", "staff", "intern"])]

/-- `can` from `src/authz/engine.py` (`if not required` also fires on an empty
role list; the Python f-string rendering of the required-role list inside the
`missing_role` reason is abbreviated to a comma-separated join). -/
def authz_can (actor_roles : List String) (action : String) : Bool × String :=
  match POLICY.lookup action with
  | none => (false, "default_deny: action " ++ action ++ " not in policy")
  | some required =>
    if required.isEmpty then
      (false, "default_deny: action " ++ action ++ " not in policy")
    else if required.any (fun r => actor_roles.contains r) then
      (true, "allow")
    else
      (false, "missing_role: need one of " ++ String.intercalate ", " required)

/-! ### Verb dispatcher (`src/laneB/verbs/registry.py`) -/

/-- `VerbContext`. -/
structure VerbContext where
  correlation_id : String
  tenant_id : String
  actor_id : String
  actor_roles : List String
  shard : Option String
deriving DecidableEq, Repr

/-- `VerbResult` (`data: Any | None` modelled as an opaque `Option String`). -/
structure VerbResult where
  ok : Bool
  data : Option String
  error : Option String
deriving DecidableEq, Repr

/-- One entry of the `VERBS` registry: the `authz_action` tag, the pydantic
`schema` (as a validator returning the parsed args), and the `execute` body.
The body threads the event log, since some verb bodies append audit events of
their own; its other repository effects are irrelevant to the dispatcher
claims. -/
structure VerbDef where
  authz_action : Option String
  validate : Args → Except String Args
  body : Args → VerbContext → EventLog → EventLog × VerbResult

/-- `VERBS.get`. -/
abbrev VerbTable := String → Option VerbDef

/-- The validate-then-execute tail of `run_verb` (after the authz gate). -/
def run_verb_checked (verb_cls : VerbDef) (raw_args : Args)
    (ctx : VerbContext) (elog : EventLog) : EventLog × VerbResult :=
  match verb_cls.validate raw_args with
  | .error e =>
    (elog, { ok := false, data := none,
             error := some ("validation_error:" ++ e) })
  | .ok parsed =>
    let (elog2, result) := verb_cls.body parsed ctx elog
    (log "verb_executed" ctx.correlation_id ctx.actor_id ctx.tenant_id
      ctx.shard elog2, result)

/-- `run_verb` from `src/laneB/verbs/registry.py`, threading the event log. -/
def run_verb (tbl : VerbTable) (verb_name : String) (raw_args : Args)
    (ctx : VerbContext) (elog : EventLog) : EventLog × VerbResult :=
  match tbl verb_name with
  | none => (elog, { ok := false, data := none, error := some "unknown_verb" })
  | some verb_cls =>
    match verb_cls.authz_action with
    | some action =>
      let (allowed, reason) := authz_can ctx.actor_roles action
      if allowed then
        run_verb_checked verb_cls raw_args ctx elog
      else
        (log "authz_denied" ctx.correlation_id ctx.actor_id ctx.tenant_id
          ctx.shard elog,
         { ok := false, data := none,
           error := some ("authz_denied:" ++ reason) })
    | none => run_verb_checked verb_cls raw_args ctx elog

/-! ### Volunteer requests and the assign verb
(`src/state/models.py`, `src/laneB/verbs/registry.py`) -/

/-- `VolunteerRequest` dataclass; `assignments` is a dict role → person ids. -/
structure VolunteerRequest where
  id : String
  tenant_id : String
  basketball_needed : Nat
  volleyball_needed : Nat
  created_at : Nat
  updated_at : Nat
  assignments : String → Option (List String)

/-- `InMemoryDB.volunteer_requests`, keyed by request id. -/
abbrev VolunteerStore := String → Option VolunteerRequest

/-- `InMemoryDB.save_volunteer_request`: sets `updated_at` and stores by id. -/
def save_volunteer_request (now : Nat) (store : VolunteerStore)
    (req : VolunteerRequest) : VolunteerStore :=
  fun i => if i = req.id then some { req with updated_at := now } else store i

/-- `AssignVerb.execute` with parsed args `(request_id, person_id, role)`.
The success payload (the whole assignments dict) is modelled by the opaque
marker `"assignments_map"`; the early-return marker `"already_assigned"` is
kept verbatim. -/
def assign_execute (now : Nat) (store : VolunteerStore)
    (request_id person_id role : String) : VolunteerStore × VerbResult :=
  match store request_id with
  | none =>
    (store, { ok := false, data := none, error := some "request_not_found" })
  | some req =>
    if ((req.assignments role).getD []).contains person_id then
      (store, { ok := true, data := some "already_assigned", error := none })
    else
      let req' := { req with assignments := (fun r =>
        if r = role then some (((req.assignments role).getD []) ++ [person_id])
        else req.assignments r) }
      (save_volunteer_request now store req',
       { ok := true, data := some "assignments_map", error := none })

/-! ### Plan executor (`src/laneB/executor/executor.py`) -/

/-- `PlanStep` pydantic model. -/
structure PlanStep where
  verb : String
  args : Args
deriving DecidableEq, Repr

/-- `ExecutionPlan` pydantic model. -/
structure ExecutionPlan where
  steps : List PlanStep
  shard : Option String
deriving DecidableEq, Repr

/-- The raw `plan_json` handed to `ExecutionPlan(**plan_json)`: a `none`
field stands for a missing (or non-string / non-dict) field that makes
pydantic raise `ValidationError`.  An empty string is a valid `str` for
pydantic, so `verb := some ""` validates. -/
structure RawStep where
  verb : Option String
  args : Option Args
deriving DecidableEq, Repr

structure RawPlan where
  steps : Option (List RawStep)
  shard : Option String
deriving DecidableEq, Repr

def validate_step (s : RawStep) : Except String PlanStep :=
  match s.verb, s.args with
  | some v, some a => .ok { verb := v, args := a }
  | none, _ => .error "steps.verb: field required"
  | _, none => .error "steps.args: field required"

/-- `ExecutionPlan(**plan_json)`: pydantic validation of the raw plan. -/
def validate_plan (p : RawPlan) : Except String ExecutionPlan :=
  match p.steps with
  | none => .error "steps: field required"
  | some ss =>
    (ss.mapM validate_step).map (fun steps => { steps := steps, shard := p.shard })

/-- One entry of the executor's `results` list: `{"verb": ..., "data": ...}`. -/
structure StepResult where
  verb : String
  data : Option String
deriving DecidableEq, Repr

inductive StepOutcome where
  | allOk
  | failed (error : Option String)
deriving DecidableEq, Repr

/-- The step loop of `Executor.execute` (the `for step in plan.steps` body):
returns the steps actually dispatched, the accumulated results of completed
steps, and the first failing step's error if any. -/
def run_steps (dispatch : PlanStep → VerbResult) :
    List PlanStep → List PlanStep × List StepResult × StepOutcome
  | [] => ([], [], .allOk)
  | s :: rest =>
    let res := dispatch s
    if res.ok then
      let (tr, results, out) := run_steps dispatch rest
      (s :: tr, { verb := s.verb, data := res.data } :: results, out)
    else
      ([s], [], .failed res.error)

/-- The clarify dict assembled by `Executor.execute`.  On the degraded path it
is `{"summary": "Execution completed.", "clarifying_question": None,
"_clarify_error": str(e)}`. -/
structure Clarify where
  summary : String
  clarifying_question : Option String
  clarify_error : Option String
deriving DecidableEq, Repr

/-- The three clarify-phase collaborators (`detect_signals`,
`choose_clarifying_question`, `summarize_and_clarify`), modelled as oracles
that either return a value or raise (`Except.error`).  Signals and question
descriptors are opaque. -/
structure ClarifyOracles where
  detect_signals : RawPlan → List StepResult → Except String String
  choose_clarifying_question : String → Except String (Option String)
  summarize_and_clarify : String → Option String → Except String Clarify

/-- The post-execution clarify phase of `Executor.execute`.  The Python
`except` covers only the three collaborator calls; the
`set_conversation_state` call that follows reads the local `signals`, which
is unbound when `detect_signals` itself raised — in Python that raises
`UnboundLocalError`, modelled here as `Except.error`. -/
def clarify_phase (oracles : ClarifyOracles) (plan_json : RawPlan)
    (results : List StepResult) : Except String (Clarify × String) :=
  match oracles.detect_signals plan_json results with
  | .error _ => .error "UnboundLocalError: signals"
  | .ok signals =>
    let clarify :=
      match oracles.choose_clarifying_question signals with
      | .error e =>
        { summary := "Execution completed.", clarifying_question := none,
          clarify_error := some e }
      | .ok chosen =>
        match oracles.summarize_and_clarify signals chosen with
        | .error e =>
          { summary := "Execution completed.", clarifying_question := none,
            clarify_error := some e }
        | .ok c => c
    .ok (clarify, signals)

/-- The returned execution outcome dict. -/
structure ExecResult where
  ok : Bool
  error : Option String
  results : Option (List StepResult)
  clarify : Option Clarify
deriving DecidableEq, Repr

inductive LockEvent where
  | acquired (shard owner : String) (ok : Bool)
  | released (shard owner : String)
deriving DecidableEq, Repr

/-- Everything observable about one `Executor.execute` call: the final lock
store, the lock operations performed, the steps dispatched, and the returned
dict (or the propagated exception). -/
structure ExecEffects where
  locks : LockState
  lock_trace : List LockEvent
  dispatched : List PlanStep
  result : Except String ExecResult

/-- The `try:` body of `Executor.execute` once the lock (if any) is held:
step loop, `plan_executed` audit event (a sink, elided), clarify phase,
conversation-state write (modelled through `clarify_phase`). -/
def execute_body (dispatch : PlanStep → VerbResult) (oracles : ClarifyOracles)
    (plan_json : RawPlan) (plan : ExecutionPlan) :
    List PlanStep × Except String ExecResult :=
  let (tr, results, out) := run_steps dispatch plan.steps
  match out with
  | .failed err =>
    (tr, .ok { ok := false, error := err, results := some results,
               clarify := none })
  | .allOk =>
    match clarify_phase oracles plan_json results with
    | .error e => (tr, .error e)
    | .ok (clarify, _) =>
      (tr, .ok { ok := true, error := none, results := some results,
                 clarify := some clarify })

/-- `Executor.execute`.  `if plan.shard:` is Python truthiness, so an
empty-string shard skips locking; on a held shard the `finally` release always
runs, and the failed-acquire return happens before the `try`, so no release
is attempted there. -/
def Executor.execute (dispatch : PlanStep → VerbResult)
    (oracles : ClarifyOracles) (now : Nat) (correlation_id : String)
    (locks : LockState) (plan_json : RawPlan) : ExecEffects :=
  match validate_plan plan_json with
  | .error e =>
    { locks := locks, lock_trace := [], dispatched := [],
      result := .ok { ok := false, error := some ("plan_invalid:" ++ e),
                      results := none, clarify := none } }
  | .ok plan =>
    match plan.shard with
    | none =>
      let (tr, res) := execute_body dispatch oracles plan_json plan
      { locks := locks, lock_trace := [], dispatched := tr, result := res }
    | some shard =>
      if shard == "" then
        let (tr, res) := execute_body dispatch oracles plan_json plan
        { locks := locks, lock_trace := [], dispatched := tr, result := res }
      else
        let owner := "exec:" ++ correlation_id
        let (locks1, ok) := locks_acquire now locks shard owner
        if ok then
          let (tr, res) := execute_body dispatch oracles plan_json plan
          { locks := locks_release locks1 shard owner,
            lock_trace := [.acquired shard owner true, .released shard owner],
            dispatched := tr, result := res }
        else
          { locks := locks1, lock_trace := [.acquired shard owner false],
            dispatched := [],
            result := .ok { ok := false, error := some "shard_locked",
                            results := none, clarify := none } }

/-! ### Concrete inputs used by witnesses and counterexamples -/

def exA : RoomHold :=
  { id := "a", tenant_id := "t", room_id := "r", start := 10, «end» := 20,
    status := .confirmed, expires_at := 0 }

def exB : RoomHold :=
  { id := "b", tenant_id := "t", room_id := "r", start := 20, «end» := 30,
    status := .hold, expires_at := 100 }

def exC : RoomHold :=
  { id := "c", tenant_id := "t", room_id := "r", start := 40, «end» := 50,
    status := .canceled, expires_at := 0 }

/-- A small room-hold store: one CONFIRMED hold on `[10,20)`, one live HOLD on
`[20,30)`, one CANCELED record. -/
def exStore : RoomStore := [exA, exB, exC]

def exH1 : RoomHold :=
  { id := "h1", tenant_id := "t", room_id := "r", start := 10, «end» := 20,
    status := .hold, expires_at := 100 }

def exH2 : RoomHold :=
  { id := "h2", tenant_id := "t", room_id := "r", start := 15, «end» := 25,
    status := .hold, expires_at := 100 }

/-- Two overlapping HOLDs on the same room, no CONFIRMED record anywhere. -/
def exTwoHolds : RoomStore := [exH1, exH2]

def exCtx : VerbContext :=
  { correlation_id := "cid", tenant_id := "t1", actor_id := "u1",
    actor_roles := ["staff"], shard := none }

/-- The same caller with a role that satisfies no policy entry. -/
def exCtxMember : VerbContext :=
  { correlation_id := "cid", tenant_id := "t1", actor_id := "u1",
    actor_roles := ["member"], shard := none }

/-- A registry entry whose schema accepts anything and whose body appends no
audit events of its own. -/
def exVerbDef : VerbDef :=
  { authz_action := some "volunteer.manage",
    validate := fun a => .ok a,
    body := fun _ _ elog =>
      (elog, { ok := true, data := some "d", error := none }) }

def exTable : VerbTable :=
  fun name => if name = "assign" then some exVerbDef else none

def exRequest : VolunteerRequest :=
  { id := "req1", tenant_id := "t1", basketball_needed := 2,
    volleyball_needed := 0, created_at := 0, updated_at := 0,
    assignments := fun r =>
      if r = "basketball" then some [] else
      if r = "volleyball" then some [] else none }

def exVolunteerStore : VolunteerStore :=
  fun i => if i = "req1" then some exRequest else none

/-- A dispatcher for examples: every step succeeds. -/
def exDispatchOk : PlanStep → VerbResult :=
  fun s => { ok := true, data := some s.verb, error := none }

/-- A dispatcher for examples: the verb `"b"` fails, everything else works. -/
def exDispatchFailB : PlanStep → VerbResult :=
  fun s =>
    if s.verb = "b" then { ok := false, data := none, error := some "boom" }
    else { ok := true, data := some s.verb, error := none }

def exClarify : Clarify :=
  { summary := "s", clarifying_question := none, clarify_error := none }

/-- Oracles for examples: every clarify-phase call succeeds. -/
def exOraclesOk : ClarifyOracles :=
  { detect_signals := fun _ _ => .ok "sig",
    choose_clarifying_question := fun _ => .ok none,
    summarize_and_clarify := fun _ _ => .ok exClarify }

/-- Oracles whose `detect_signals` raises. -/
def exOraclesDetectRaises : ClarifyOracles :=
  { detect_signals := fun _ _ => .error "boom",
    choose_clarifying_question := fun _ => .ok none,
    summarize_and_clarify := fun _ _ => .ok exClarify }

/-- Oracles whose `summarize_and_clarify` raises. -/
def exOraclesSummarizeRaises : ClarifyOracles :=
  { detect_signals := fun _ _ => .ok "sig",
    choose_clarifying_question := fun _ => .ok none,
    summarize_and_clarify := fun _ _ => .error "llm down" }

/-- A plan whose only step has an empty verb name: malformed per the spec, but
pydantic accepts the empty string. -/
def exEmptyVerbPlan : RawPlan :=
  { steps := some [{ verb := some "", args := some [] }], shard := some "s1" }

/-- A plan whose only step is missing its `args` field. -/
def exMissingArgsPlan : RawPlan :=
  { steps := some [{ verb := some "assign", args := none }], shard := some "s1" }

/-- A three-step raw plan whose middle verb `"b"` will fail under
`exDispatchFailB`. -/
def exThreeStepPlan : RawPlan :=
  { steps := some [{ verb := some "a", args := some [] },
                   { verb := some "b", args := some [] },
                   { verb := some "c", args := some [] }], shard := none }

def exEmptyLocks : LockState := fun _ => none

def exLock : ShardLock :=
  { shard := "s", owner := "o1", acquired_at := 0, expires_at := 10 }

/-- A lock store holding one non-expired lease on shard `"s"` by `"o1"`. -/
def exLockState : LockState := fun k => if k = "s" then some exLock else none

def exEmptyLedger : IdempotencyLedger := fun _ => none

/-! ### Store lemmas -/

theorem mem_save_room_hold {st : RoomStore} {x y : RoomHold}
    (hy : y ∈ save_room_hold st x) : y = x ∨ y ∈ st := by
  unfold save_room_hold at hy
  by_cases hb : st.any (fun h => h.id == x.id) = true
  · simp only [hb, if_true] at hy
    rcases List.mem_map.mp hy with ⟨h, hh, heq⟩
    by_cases hid : (h.id == x.id) = true
    · simp only [hid, if_true] at heq
      exact Or.inl heq.symm
    · simp only [hid, if_false, Bool.false_eq_true] at heq
      exact Or.inr (heq ▸ hh)
  · simp only [hb, if_false, Bool.false_eq_true, List.mem_append,
      List.mem_singleton] at hy
    rcases hy with hy | hy
    · exact Or.inr hy
    · exact Or.inl hy

theorem self_mem_save_room_hold (st : RoomStore) (x : RoomHold) :
    x ∈ save_room_hold st x := by
  unfold save_room_hold
  by_cases hb : st.any (fun h => h.id == x.id) = true
  · simp only [hb, if_true]
    rcases List.any_eq_true.mp hb with ⟨h, hh, hid⟩
    exact List.mem_map.mpr ⟨h, hh, by simp [hid]⟩
  · simp [hb]

theorem mem_save_room_hold_of_ne {st : RoomStore} {x y : RoomHold}
    (hy : y ∈ st) (hne : y.id ≠ x.id) : y ∈ save_room_hold st x := by
  unfold save_room_hold
  by_cases hb : st.any (fun h => h.id == x.id) = true
  · simp only [hb, if_true]
    exact List.mem_map.mpr ⟨y, hy, by simp [hne]⟩
  · simp [hb, hy]

theorem ids_save_room_hold (st : RoomStore) (x : RoomHold) :
    (save_room_hold st x).map (fun h => h.id) =
      if st.any (fun h => h.id == x.id) then st.map (fun h => h.id)
      else st.map (fun h => h.id) ++ [x.id] := by
  unfold save_room_hold
  by_cases hb : st.any (fun h => h.id == x.id) = true
  · simp only [hb, if_true, List.map_map]
    apply List.map_congr_left
    intro h _
    by_cases hid : (h.id == x.id) = true
    · simp only [Function.comp_apply, hid, if_true]
      exact (eq_of_beq hid).symm
    · have hne : h.id ≠ x.id := by simpa using hid
      simp [hne]
  · simp [hb]

theorem nodupIds_save_room_hold {st : RoomStore} (x : RoomHold)
    (hst : NodupIds st) : NodupIds (save_room_hold st x) := by
  unfold NodupIds
  rw [ids_save_room_hold]
  by_cases hb : st.any (fun h => h.id == x.id) = true
  · simpa [hb] using hst
  · simp only [hb, if_false, Bool.false_eq_true]
    rw [List.nodup_append]
    refine ⟨hst, List.nodup_singleton _, ?_⟩
    intro a ha hmem
    rcases List.mem_map.mp ha with ⟨h, hh, rfl⟩
    simp only [List.mem_singleton] at hmem
    have := List.any_eq_true.not.mp hb
    push_neg at this
    exact absurd (beq_iff_eq.mpr hmem) (by simpa using this h hh)

theorem get_room_hold_mem {st : RoomStore} {hid : String} {h : RoomHold}
    (hfind : get_room_hold st hid = some h) : h ∈ st ∧ h.id = hid := by
  refine ⟨List.mem_of_find?_eq_some hfind, ?_⟩
  have := List.find?_some hfind
  exact eq_of_beq this

theorem get_room_hold_self {st : RoomStore} (hnd : NodupIds st) {h : RoomHold}
    (hmem : h ∈ st) : get_room_hold st h.id = some h := by
  induction st with
  | nil => simp at hmem
  | cons a tl ih =>
    unfold get_room_hold
    rcases List.mem_cons.mp hmem with rfl | htl
    · simp [List.find?]
    · have hna : a.id ≠ h.id := by
        intro heq
        have : a.id ∈ tl.map (fun h => h.id) :=
          heq ▸ List.mem_map.mpr ⟨h, htl, rfl⟩
        exact (List.nodup_cons.mp hnd).1 this
      have htlnd : NodupIds tl := (List.nodup_cons.mp hnd).2
      simp only [List.find?]
      rw [show (a.id == h.id) = false from beq_eq_false_iff_ne.mpr hna]
      exact ih htlnd htl

theorem mem_get_active {now : Nat} {st : RoomStore} {t r : String}
    {h : RoomHold} :
    h ∈ get_active_room_holds now st t r ↔
      h ∈ st ∧ h.tenant_id = t ∧ h.room_id = r ∧
        (h.status = .hold ∨ h.status = .confirmed) ∧
        h.is_expired now = false := by
  simp [get_active_room_holds, List.mem_filter, and_assoc]

theorem confirmed_not_expired {h : RoomHold} (hc : h.status = .confirmed)
    (now : Nat) : h.is_expired now = false := by
  simp [RoomHold.is_expired, hc]

theorem overlaps_symm (a1 a2 b1 b2 : Nat) :
    overlaps a1 a2 b1 b2 = overlaps b1 b2 a1 a2 := by
  simp [overlaps, Bool.and_comm]

/-! ### Invariant preservation for the reservation engine -/

theorem room_hold_preserves_inv (now : Nat) (newId : String) (st : RoomStore)
    (t r : String) (s e : Nat) (hInv : ConfirmedNonOverlap st) :
    ConfirmedNonOverlap (room_hold now newId st t r s e).1 := by
  by_cases hg : (get_active_room_holds now st t r).any
      (fun h => h.status == .confirmed && overlaps s e h.start h.«end») = true
  · simpa [room_hold, hg] using hInv
  · simp only [room_hold, hg, if_false, Bool.false_eq_true]
    intro a ha b hb hne hac hbc hte hro
    rcases mem_save_room_hold ha with rfl | ha'
    · simp [new_hold] at hac
    rcases mem_save_room_hold hb with rfl | hb'
    · simp [new_hold] at hbc
    exact hInv a ha' b hb' hne hac hbc hte hro

theorem room_confirm_preserves_inv (now : Nat) (st : RoomStore) (hid : String)
    (hInv : ConfirmedNonOverlap st) :
    ConfirmedNonOverlap (room_confirm now st hid).1 := by
  cases hfind : get_room_hold st hid with
  | none => simpa [room_confirm, hfind] using hInv
  | some hold =>
    by_cases hexp : hold.is_expired now = true
    · simp only [room_confirm, hfind, hexp, if_true]
      intro a ha b hb hne hac hbc hte hro
      rcases mem_save_room_hold ha with rfl | ha'
      · simp at hac
      rcases mem_save_room_hold hb with rfl | hb'
      · simp at hbc
      exact hInv a ha' b hb' hne hac hbc hte hro
    · by_cases hg : (get_active_room_holds now st hold.tenant_id hold.room_id).any
          (fun h => h.id != hold.id && h.status == .confirmed &&
            overlaps hold.start hold.«end» h.start h.«end») = true
      · simpa [room_confirm, hfind, hexp, hg] using hInv
      · simp only [room_confirm, hfind, hexp, hg, if_false, Bool.false_eq_true]
        intro a ha b hb hne hac hbc hte hro
        rcases mem_save_room_hold ha with rfl | ha' <;>
          rcases mem_save_room_hold hb with rfl | hb'
        · exact absurd rfl hne
        · have hbid : b.id ≠ hold.id := by
            intro hEq
            exact hne (by simpa using hEq.symm)
          have hbActive :
              b ∈ get_active_room_holds now st hold.tenant_id hold.room_id := by
            rw [mem_get_active]
            exact ⟨hb', by simpa using hte.symm, by simpa using hro.symm,
              Or.inr hbc, confirmed_not_expired hbc now⟩
          cases hcase : overlaps hold.start hold.«end» b.start b.«end» with
          | false => simp [hcase]
          | true =>
            exact absurd (List.any_eq_true.mpr
              ⟨b, hbActive, by simp [hbid, hbc, hcase]⟩) hg
        · have haid : a.id ≠ hold.id := by
            intro hEq
            exact hne (by simpa using hEq)
          have haActive :
              a ∈ get_active_room_holds now st hold.tenant_id hold.room_id := by
            rw [mem_get_active]
            exact ⟨ha', by simpa using hte, by simpa using hro,
              Or.inr hac, confirmed_not_expired hac now⟩
          rw [show (({ hold with status := .confirmed } : RoomHold).start) =
            hold.start from rfl, show (({ hold with status := .confirmed } :
            RoomHold).«end») = hold.«end» from rfl, ← overlaps_symm]
          cases hcase : overlaps hold.start hold.«end» a.start a.«end» with
          | false => rfl
          | true =>
            exact absurd (List.any_eq_true.mpr
              ⟨a, haActive, by simp [haid, hac, hcase]⟩) hg
        · exact hInv a ha' b hb' hne hac hbc hte hro

theorem adjust_hold_preserves_inv (now : Nat) (st : RoomStore) (hid : String)
    (ns ne : Nat) (hInv : ConfirmedNonOverlap st) :
    ConfirmedNonOverlap (adjust_hold now st hid ns ne).1 := by
  cases hfind : get_room_hold st hid with
  | none => simpa [adjust_hold, hfind] using hInv
  | some hold =>
    by_cases hstat : (!(hold.status == .hold || hold.status == .confirmed)) = true
    · simpa [adjust_hold, hfind, hstat] using hInv
    · by_cases hg : (get_active_room_holds now st hold.tenant_id hold.room_id).any
          (fun h => h.id != hold.id && h.status == .confirmed &&
            overlaps ns ne h.start h.«end») = true
      · simpa [adjust_hold, hfind, hstat, hg] using hInv
      · simp only [adjust_hold, hfind, hstat, hg, if_false, Bool.false_eq_true]
        intro a ha b hb hne hac hbc hte hro
        rcases mem_save_room_hold ha with rfl | ha' <;>
          rcases mem_save_room_hold hb with rfl | hb'
        · exact absurd rfl hne
        · have hbid : b.id ≠ hold.id := by
            intro hEq
            exact hne (by simpa using hEq.symm)
          have hbActive :
              b ∈ get_active_room_holds now st hold.tenant_id hold.room_id := by
            rw [mem_get_active]
            exact ⟨hb', by simpa using hte.symm, by simpa using hro.symm,
              Or.inr hbc, confirmed_not_expired hbc now⟩
          cases hcase : overlaps ns ne b.start b.«end» with
          | false => simp [hcase]
          | true =>
            exact absurd (List.any_eq_true.mpr
              ⟨b, hbActive, by simp [hbid, hbc, hcase]⟩) hg
        · have haid : a.id ≠ hold.id := by
            intro hEq
            exact hne (by simpa using hEq)
          have haActive :
              a ∈ get_active_room_holds now st hold.tenant_id hold.room_id := by
            rw [mem_get_active]
            exact ⟨ha', by simpa using hte, by simpa using hro,
              Or.inr hac, confirmed_not_expired hac now⟩
          rw [show (({ hold with start := ns, «end» := ne } : RoomHold).start) =
            ns from rfl, show (({ hold with start := ns, «end» := ne } :
            RoomHold).«end») = ne from rfl, ← overlaps_symm]
          cases hcase : overlaps ns ne a.start a.«end» with
          | false => rfl
          | true =>
            exact absurd (List.any_eq_true.mpr
              ⟨a, haActive, by simp [haid, hac, hcase]⟩) hg
        · exact hInv a ha' b hb' hne hac hbc hte hro

/-! ### Claim theorems: reservation engine -/

/-- C1: starting from any room-hold store in which no two CONFIRMED holds on
the same `(tenant_id, room_id)` have overlapping `[start, end)` intervals,
each of `room_hold`, `room_confirm` and `adjust_hold` (for any arguments)
leaves the store satisfying the same non-overlap property, and expiry applies
only to HOLD-status records, never CONFIRMED ones. -/
theorem claim_C1_allocator_invariant (st : RoomStore)
    (hInv : ConfirmedNonOverlap st) :
    (∀ now newId tenant room s e,
        ConfirmedNonOverlap (room_hold now newId st tenant room s e).1) ∧
    (∀ now hid, ConfirmedNonOverlap (room_confirm now st hid).1) ∧
    (∀ now hid ns ne, ConfirmedNonOverlap (adjust_hold now st hid ns ne).1) ∧
    (∀ now (h : RoomHold), h.is_expired now = true → h.status = .hold) := by
  refine ⟨fun now newId t r s e =>
      room_hold_preserves_inv now newId st t r s e hInv,
    fun now hid => room_confirm_preserves_inv now st hid hInv,
    fun now hid ns ne => adjust_hold_preserves_inv now st hid ns ne hInv,
    fun now h hexp => ?_⟩
  simp only [RoomHold.is_expired, Bool.and_eq_true, beq_iff_eq] at hexp
  exact hexp.1

/-- Witness for C1 at a concrete store. -/
theorem claim_C1_witness :
    ConfirmedNonOverlap exStore ∧
      ConfirmedNonOverlap (room_hold 5 "d" exStore "t" "r" 30 40).1 :=
  ⟨by decide,
   (claim_C1_allocator_invariant exStore (by decide)).1 5 "d" "t" "r" 30 40⟩

/-- C9: `adjust_hold` returns `not_found` when the hold is missing,
`invalid_state` when its status is neither HOLD nor CONFIRMED, and
`conflict_confirmed` when the new interval overlaps another party's CONFIRMED
interval; in each failure case the store — hence the hold's original start and
end — is unchanged, and only on success is the hold stored with the new
interval. -/
theorem claim_C9_adjust_hold_cases (now : Nat) (st : RoomStore) (hid : String)
    (ns ne : Nat) :
    (get_room_hold st hid = none →
      adjust_hold now st hid ns ne = (st, false, "not_found")) ∧
    (∀ hold, get_room_hold st hid = some hold →
      ¬(hold.status = .hold ∨ hold.status = .confirmed) →
      adjust_hold now st hid ns ne = (st, false, "invalid_state")) ∧
    (∀ hold, get_room_hold st hid = some hold →
      (hold.status = .hold ∨ hold.status = .confirmed) →
      (get_active_room_holds now st hold.tenant_id hold.room_id).any
          (fun h => h.id != hold.id && h.status == .confirmed &&
            overlaps ns ne h.start h.«end») = true →
      adjust_hold now st hid ns ne = (st, false, "conflict_confirmed")) ∧
    (∀ hold, get_room_hold st hid = some hold →
      (hold.status = .hold ∨ hold.status = .confirmed) →
      (get_active_room_holds now st hold.tenant_id hold.room_id).any
          (fun h => h.id != hold.id && h.status == .confirmed &&
            overlaps ns ne h.start h.«end») = false →
      adjust_hold now st hid ns ne =
        (save_room_hold st { hold with start := ns, «end» := ne },
          true, "ok")) := by
  refine ⟨?_, ?_, ?_, ?_⟩
  · intro hf
    simp [adjust_hold, hf]
  · intro hold hf hstat
    push_neg at hstat
    simp [adjust_hold, hf, hstat.1, hstat.2]
  · intro hold hf hstat hg
    rcases hstat with h | h <;> simp [adjust_hold, hf, h, hg]
  · intro hold hf hstat hg
    rcases hstat with h | h <;> simp [adjust_hold, hf, h, hg]

/-- Witness for C9: all four cases at concrete inputs over `exStore`
(missing id, the CANCELED record `"c"`, the HOLD `"b"` moved onto the
CONFIRMED `[10,20)`, and `"b"` moved to a free slot). -/
theorem claim_C9_witness :
    (adjust_hold 5 exStore "zzz" 1 2 = (exStore, false, "not_found")) ∧
    (adjust_hold 5 exStore "c" 1 2 = (exStore, false, "invalid_state")) ∧
    (adjust_hold 5 exStore "b" 15 25 = (exStore, false, "conflict_confirmed")) ∧
    (adjust_hold 5 exStore "b" 60 70).2 = (true, "ok") := by
  refine ⟨(claim_C9_adjust_hold_cases 5 exStore "zzz" 1 2).1 (by decide),
    (claim_C9_adjust_hold_cases 5 exStore "c" 1 2).2.1 exC (by decide)
      (by decide),
    (claim_C9_adjust_hold_cases 5 exStore "b" 15 25).2.2.1 exB (by decide)
      (by decide) (by decide),
    ?_⟩
  rw [(claim_C9_adjust_hold_cases 5 exStore "b" 60 70).2.2.2 exB (by decide)
    (by decide) (by decide)]

/-- C8: `room_hold` succeeds and creates a HOLD even when an existing
non-expired HOLD overlaps the requested interval — conflict is enforced only
against CONFIRMED holds; and when two overlapping HOLDs exist (and nothing is
CONFIRMED yet), confirming the first succeeds and confirming the second then
fails with `race_conflict`. -/
theorem claim_C8_two_phase_holds :
    (∀ now newId st tenant room s e,
      (∃ h ∈ get_active_room_holds now st tenant room,
          h.status = .hold ∧ overlaps s e h.start h.«end» = true) →
      (∀ h ∈ get_active_room_holds now st tenant room,
          h.status = .confirmed → overlaps s e h.start h.«end» = false) →
      room_hold now newId st tenant room s e =
        (save_room_hold st (new_hold now newId tenant room s e), true,
          some (new_hold now newId tenant room s e), "ok")) ∧
    (∀ now (st : RoomStore) (h1 h2 : RoomHold), NodupIds st → h1 ∈ st →
      h2 ∈ st → h1.id ≠ h2.id → h1.is_expired now = false →
      h2.is_expired now = false → h1.tenant_id = h2.tenant_id →
      h1.room_id = h2.room_id →
      overlaps h1.start h1.«end» h2.start h2.«end» = true →
      (∀ h ∈ st, h.status ≠ .confirmed) →
      (room_confirm now st h1.id).2 = (true, "ok") ∧
        (room_confirm now (room_confirm now st h1.id).1 h2.id).2 =
          (false, "race_conflict")) := by
  constructor
  · intro now newId st t r s e _ hNoConf
    have hg : (get_active_room_holds now st t r).any
        (fun h => h.status == .confirmed &&
          overlaps s e h.start h.«end») = false := by
      cases hcase : (get_active_room_holds now st t r).any
          (fun h => h.status == .confirmed &&
            overlaps s e h.start h.«end») with
      | false => rfl
      | true =>
        rcases List.any_eq_true.mp hcase with ⟨h, hmem, hp⟩
        simp only [Bool.and_eq_true, beq_iff_eq] at hp
        exact absurd hp.2 (by simp [hNoConf h hmem hp.1])
    simp [room_hold, hg]
  · intro now st h1 h2 hnd h1m h2m hne h1e h2e ht hr hov hnoconf
    have hfind1 : get_room_hold st h1.id = some h1 := get_room_hold_self hnd h1m
    have hg1 : (get_active_room_holds now st h1.tenant_id h1.room_id).any
        (fun h => h.id != h1.id && h.status == .confirmed &&
          overlaps h1.start h1.«end» h.start h.«end») = false := by
      cases hcase : (get_active_room_holds now st h1.tenant_id h1.room_id).any
          (fun h => h.id != h1.id && h.status == .confirmed &&
            overlaps h1.start h1.«end» h.start h.«end») with
      | false => rfl
      | true =>
        rcases List.any_eq_true.mp hcase with ⟨h, hmem, hp⟩
        simp only [Bool.and_eq_true, beq_iff_eq, bne_iff_ne] at hp
        exact absurd hp.1.2 (hnoconf h (mem_get_active.mp hmem).1)
    have hconfirm1 : room_confirm now st h1.id =
        (save_room_hold st { h1 with status := .confirmed }, true, "ok") := by
      simp [room_confirm, hfind1, h1e, hg1]
    refine ⟨by rw [hconfirm1], ?_⟩
    rw [hconfirm1]
    have hnd1 : NodupIds (save_room_hold st { h1 with status := .confirmed }) :=
      nodupIds_save_room_hold _ hnd
    have h2m1 : h2 ∈ save_room_hold st { h1 with status := .confirmed } :=
      mem_save_room_hold_of_ne h2m (by simpa using hne.symm)
    have hfind2 : get_room_hold
        (save_room_hold st { h1 with status := .confirmed }) h2.id = some h2 :=
      get_room_hold_self hnd1 h2m1
    have h1'active : ({ h1 with status := .confirmed } : RoomHold) ∈
        get_active_room_holds now
          (save_room_hold st { h1 with status := .confirmed })
          h2.tenant_id h2.room_id := by
      rw [mem_get_active]
      exact ⟨self_mem_save_room_hold st _, by simpa using ht,
        by simpa using hr, Or.inr rfl, confirmed_not_expired rfl now⟩
    have hov2 : overlaps h2.start h2.«end» h1.start h1.«end» = true := by
      rw [overlaps_symm]; exact hov
    have hg2 : (get_active_room_holds now
        (save_room_hold st { h1 with status := .confirmed })
        h2.tenant_id h2.room_id).any
        (fun h => h.id != h2.id && h.status == .confirmed &&
          overlaps h2.start h2.«end» h.start h.«end») = true := by
      refine List.any_eq_true.mpr ⟨_, h1'active, ?_⟩
      simp [hne, hov2]
    simp [room_confirm, hfind2, h2e, hg2]

/-- Witness for C8: a request overlapping only the live HOLD is accepted, and
the two-overlapping-HOLDs race over `exTwoHolds` plays out as claimed. -/
theorem claim_C8_witness :
    room_hold 5 "h3" exTwoHolds "t" "r" 12 18 =
      (save_room_hold exTwoHolds (new_hold 5 "h3" "t" "r" 12 18), true,
        some (new_hold 5 "h3" "t" "r" 12 18), "ok") ∧
    (room_confirm 5 exTwoHolds "h1").2 = (true, "ok") ∧
      (room_confirm 5 (room_confirm 5 exTwoHolds "h1").1 "h2").2 =
        (false, "race_conflict") := by
  refine ⟨claim_C8_two_phase_holds.1 5 "h3" exTwoHolds "t" "r" 12 18
      (by decide) (by decide), ?_⟩
  exact claim_C8_two_phase_holds.2 5 exTwoHolds exH1 exH2 (by decide)
    (by simp [exTwoHolds]) (by simp [exTwoHolds]) (by decide) (by decide)
    (by decide) (by decide) (by decide) (by decide) (by decide)

/-! ### Claim theorems: lock manager and idempotency ledger -/

/-- C6: `acquire_shard` returns true and installs/refreshes the lease to
`now + ttl` whenever no *other* owner holds a non-expired lease (so a
same-owner re-acquire always succeeds and refreshes the expiry), and returns
false leaving the store unchanged whenever a different owner holds a
non-expired lease. -/
theorem claim_C6_acquire_shard (now : Nat) (st : LockState)
    (shard owner : String) (ttl : Nat) :
    ((∀ l, st shard = some l → l.owner ≠ owner → l.is_expired now = true) →
      (acquire_shard now st shard owner ttl).2 = true ∧
        (acquire_shard now st shard owner ttl).1 shard =
          some { shard := shard, owner := owner, acquired_at := now,
                 expires_at := now + ttl } ∧
        (∀ k, k ≠ shard → (acquire_shard now st shard owner ttl).1 k = st k)) ∧
    (∀ l, st shard = some l → l.owner = owner →
      (acquire_shard now st shard owner ttl).2 = true ∧
        (acquire_shard now st shard owner ttl).1 shard =
          some { shard := shard, owner := owner, acquired_at := now,
                 expires_at := now + ttl }) ∧
    (∀ l, st shard = some l → l.owner ≠ owner → l.is_expired now = false →
      acquire_shard now st shard owner ttl = (st, false)) := by
  refine ⟨?_, ?_, ?_⟩
  · intro hfree
    have hcond : (match st shard with
        | some existing => !(existing.is_expired now) && existing.owner != owner
        | none => false) = false := by
      cases hst : st shard with
      | none => rfl
      | some l =>
        by_cases how : l.owner = owner
        · simp [how]
        · simp [hfree l hst how]
    refine ⟨by simp [acquire_shard, hcond], by simp [acquire_shard, hcond],
      fun k hk => by simp [acquire_shard, hcond, hk]⟩
  · intro l hst how
    have hcond : (match st shard with
        | some existing => !(existing.is_expired now) && existing.owner != owner
        | none => false) = false := by
      simp [hst, how]
    exact ⟨by simp [acquire_shard, hcond], by simp [acquire_shard, hcond]⟩
  · intro l hst how hlive
    have hcond : (match st shard with
        | some existing => !(existing.is_expired now) && existing.owner != owner
        | none => false) = true := by
      simp [hst, how, hlive]
    simp [acquire_shard, hcond]

/-- Witness for C6: a fresh shard is granted, a same-owner re-acquire
refreshes the lease, and a foreign non-expired lease rejects the call
unchanged. -/
theorem claim_C6_witness :
    (acquire_shard 5 exEmptyLocks "s" "o1" 30).2 = true ∧
    (acquire_shard 5 exLockState "s" "o1" 30).1 "s" =
      some { shard := "s", owner := "o1", acquired_at := 5,
             expires_at := 35 } ∧
    acquire_shard 5 exLockState "s" "o2" 30 = (exLockState, false) :=
  ⟨((claim_C6_acquire_shard 5 exEmptyLocks "s" "o1" 30).1
      (fun l h => Option.noConfusion h)).1,
   ((claim_C6_acquire_shard 5 exLockState "s" "o1" 30).2.1 exLock rfl rfl).2,
   (claim_C6_acquire_shard 5 exLockState "s" "o2" 30).2.2 exLock rfl
     (by decide) (by decide)⟩

/-- C7: for a key not yet in the ledger, `check_and_record` returns true on
the first call and false on a second call with the same key; the second call
leaves the ledger unchanged and `has_idempotency_key` reports true
afterwards. -/
theorem claim_C7_check_and_record (led : IdempotencyLedger) (key : String)
    (data data2 : Option Args)
    (hfresh : has_idempotency_key led key = false) :
    (check_and_record led key data).2 = true ∧
    (check_and_record (check_and_record led key data).1 key data2).2 = false ∧
    (check_and_record (check_and_record led key data).1 key data2).1 =
      (check_and_record led key data).1 ∧
    has_idempotency_key
      (check_and_record (check_and_record led key data).1 key data2).1 key =
      true := by
  have h1 : check_and_record led key data =
      (fun k => if k = key then some (data.getD []) else led k, true) := by
    simp [check_and_record, hfresh]
  have h2 : has_idempotency_key (check_and_record led key data).1 key = true := by
    rw [h1]
    simp [has_idempotency_key]
  have hdup : ∀ l1 : IdempotencyLedger, has_idempotency_key l1 key = true →
      check_and_record l1 key data2 = (l1, false) := by
    intro l1 hl1
    simp [check_and_record, hl1]
  have h3 := hdup (check_and_record led key data).1 h2
  exact ⟨by rw [h1], by rw [h3], by rw [h3], by rw [h3]; exact h2⟩

/-- Witness for C7 on the empty ledger. -/
theorem claim_C7_witness :
    has_idempotency_key exEmptyLedger "k" = false ∧
      (check_and_record exEmptyLedger "k" (some [("a", "1")])).2 = true ∧
      (check_and_record (check_and_record exEmptyLedger "k"
        (some [("a", "1")])).1 "k" none).2 = false := by
  have h := claim_C7_check_and_record exEmptyLedger "k" (some [("a", "1")])
    none rfl
  exact ⟨rfl, h.1, h.2.1⟩

/-! ### Claim theorems: verb dispatcher -/

/-- C10: the assign verb is idempotent: on an existing request (stored under
its own id, as the dict keyed by id guarantees), executing it twice with the
same `(request_id, person_id, role)` leaves the store equal to the state
after the first execution, and the second call returns ok with the
`"already_assigned"` marker and appends nothing. -/
theorem claim_C10_assign_idempotent (now now2 : Nat) (store : VolunteerStore)
    (request_id person_id role : String) (req : VolunteerRequest)
    (hreq : store request_id = some req) (hid : req.id = request_id) :
    (assign_execute now2
        (assign_execute now store request_id person_id role).1
        request_id person_id role).1 =
      (assign_execute now store request_id person_id role).1 ∧
    (assign_execute now2
        (assign_execute now store request_id person_id role).1
        request_id person_id role).2 =
      { ok := true, data := some "already_assigned", error := none } := by
  by_cases hc : person_id ∈ (req.assignments role).getD []
  · have h1 : assign_execute now store request_id person_id role =
        (store,
         { ok := true, data := some "already_assigned", error := none }) := by
      simp [assign_execute, hreq, hc]
    rw [h1]
    exact ⟨by simp [assign_execute, hreq, hc], by simp [assign_execute, hreq, hc]⟩
  · have h1 : assign_execute now store request_id person_id role =
        (save_volunteer_request now store
          { req with assignments := (fun r =>
            if r = role then
              some (((req.assignments role).getD []) ++ [person_id])
            else req.assignments r) },
         { ok := true, data := some "assignments_map", error := none }) := by
      simp [assign_execute, hreq, hc]
    have hkey : (assign_execute now store request_id person_id role).1
        request_id =
        some { req with
          assignments := (fun r =>
            if r = role then
              some (((req.assignments role).getD []) ++ [person_id])
            else req.assignments r),
          updated_at := now } := by
      rw [h1]
      simp [save_volunteer_request, hid]
    constructor
    · rw [h1]
      simp [assign_execute, save_volunteer_request, hid]
    · rw [h1]
      simp [assign_execute, save_volunteer_request, hid]

/-- Witness for C10 on a concrete one-request store. -/
theorem claim_C10_witness :
    exVolunteerStore "req1" = some exRequest ∧ exRequest.id = "req1" ∧
    (assign_execute 7
        (assign_execute 3 exVolunteerStore "req1" "p9" "basketball").1
        "req1" "p9" "basketball").2 =
      { ok := true, data := some "already_assigned", error := none } :=
  ⟨rfl, rfl,
   (claim_C10_assign_idempotent 3 7 exVolunteerStore "req1" "p9" "basketball"
     exRequest rfl rfl).2⟩

/-- C4 counterexample: dispatching an unknown verb appends no audit record at
all, so it is not the case that every invocation appends exactly one. -/
theorem claim_C4_counterexample :
    (run_verb (fun _ => none) "nope" [] exCtx []).2.error =
      some "unknown_verb" ∧
    ¬((run_verb (fun _ => none) "nope" [] exCtx []).1.length =
      ([] : EventLog).length + 1) := by
  exact ⟨rfl, by decide⟩

/-- C4 (amended): the dispatcher appends exactly one audit record when
authorization is denied and exactly one dispatcher-level record after the
verb body runs (on top of whatever the body appended), but appends none when
the verb is unknown and none when the args fail schema validation. -/
theorem claim_C4_audit_records (tbl : VerbTable) (name : String) (raw : Args)
    (ctx : VerbContext) (elog : EventLog) :
    (tbl name = none → (run_verb tbl name raw ctx elog).1 = elog) ∧
    (∀ vd action, tbl name = some vd → vd.authz_action = some action →
      (authz_can ctx.actor_roles action).1 = false →
      (run_verb tbl name raw ctx elog).1 =
        log "authz_denied" ctx.correlation_id ctx.actor_id ctx.tenant_id
          ctx.shard elog) ∧
    (∀ vd, tbl name = some vd →
      (∀ action, vd.authz_action = some action →
        (authz_can ctx.actor_roles action).1 = true) →
      (∀ e, vd.validate raw = .error e →
        (run_verb tbl name raw ctx elog).1 = elog) ∧
      (∀ parsed, vd.validate raw = .ok parsed →
        (run_verb tbl name raw ctx elog).1 =
          log "verb_executed" ctx.correlation_id ctx.actor_id ctx.tenant_id
            ctx.shard (vd.body parsed ctx elog).1)) := by
  refine ⟨?_, ?_, ?_⟩
  · intro h
    simp [run_verb, h]
  · intro vd action htbl hact hdeny
    rcases hauth : authz_can ctx.actor_roles action with ⟨allowed, reason⟩
    rw [hauth] at hdeny
    simp only at hdeny
    subst hdeny
    simp [run_verb, htbl, hact, hauth]
  · intro vd htbl hallow
    have hchecked : ∀ r, vd.validate raw = r →
        ((∀ e, r = .error e → (run_verb_checked vd raw ctx elog).1 = elog) ∧
         (∀ parsed, r = .ok parsed → (run_verb_checked vd raw ctx elog).1 =
            log "verb_executed" ctx.correlation_id ctx.actor_id ctx.tenant_id
              ctx.shard (vd.body parsed ctx elog).1)) := by
      intro r hr
      constructor
      · intro e he
        subst he
        simp [run_verb_checked, hr]
      · intro parsed hp
        subst hp
        rcases hbody : vd.body parsed ctx elog with ⟨elog2, result⟩
        simp [run_verb_checked, hr, hbody]
    have hsame : run_verb tbl name raw ctx elog = run_verb_checked vd raw ctx elog := by
      cases hact : vd.authz_action with
      | none => simp [run_verb, htbl, hact]
      | some action =>
        rcases hauth : authz_can ctx.actor_roles action with ⟨allowed, reason⟩
        have := hallow action hact
        rw [hauth] at this
        simp only at this
        subst this
        simp [run_verb, htbl, hact, hauth]
    rw [hsame]
    exact hchecked (vd.validate raw) rfl

/-- Witness for C4 (amended) on a one-verb registry: unknown verb appends
nothing, a denied caller appends exactly the `authz_denied` record, and a
permitted call appends exactly the dispatcher's `verb_executed` record. -/
theorem claim_C4_witness :
    (run_verb exTable "zzz" [] exCtx []).1 = [] ∧
    (run_verb exTable "assign" [] exCtxMember []).1 =
      log "authz_denied" "cid" "u1" "t1" none [] ∧
    (run_verb exTable "assign" [] exCtx []).1 =
      log "verb_executed" "cid" "u1" "t1" none [] := by
  refine ⟨(claim_C4_audit_records exTable "zzz" [] exCtx []).1 rfl, ?_, ?_⟩
  · exact (claim_C4_audit_records exTable "assign" [] exCtxMember []).2.1
      exVerbDef "volunteer.manage" rfl rfl (by decide)
  · exact ((claim_C4_audit_records exTable "assign" [] exCtx []).2.2
      exVerbDef rfl (fun action hact => by
        cases hact
        decide)).2 [] rfl

/-! ### Claim theorems: plan executor -/

theorem run_steps_first_failure (dispatch : PlanStep → VerbResult)
    (pre : List PlanStep) (s : PlanStep) (post : List PlanStep)
    (hpre : ∀ p ∈ pre, (dispatch p).ok = true)
    (hfail : (dispatch s).ok = false) :
    run_steps dispatch (pre ++ s :: post) =
      (pre ++ [s],
       pre.map (fun p => { verb := p.verb, data := (dispatch p).data }),
       .failed (dispatch s).error) := by
  induction pre with
  | nil => simp [run_steps, hfail]
  | cons p tl ih =>
    have hp : (dispatch p).ok = true := hpre p (List.mem_cons_self p tl)
    have htl : ∀ q ∈ tl, (dispatch q).ok = true :=
      fun q hq => hpre q (List.mem_cons_of_mem p hq)
    simp [run_steps, hp, ih htl]

/-- C2: for every plan that validates and whose shard (when truthy) is free,
if the step at position N is the first whose dispatch returns ok=false, then
`Executor.execute` returns ok=false with the failing step's error and exactly
the results of the N-1 completed steps (not the failing step's), and no step
after position N is ever dispatched. -/
theorem claim_C2_first_failure_stops (dispatch : PlanStep → VerbResult)
    (oracles : ClarifyOracles) (now : Nat) (cid : String) (locks : LockState)
    (plan_json : RawPlan) (plan : ExecutionPlan) (pre : List PlanStep)
    (s : PlanStep) (post : List PlanStep)
    (hval : validate_plan plan_json = .ok plan)
    (hsteps : plan.steps = pre ++ s :: post)
    (hpre : ∀ p ∈ pre, (dispatch p).ok = true)
    (hfail : (dispatch s).ok = false)
    (hacq : ∀ sh, plan.shard = some sh → sh ≠ "" →
      (locks_acquire now locks sh ("exec:" ++ cid)).2 = true) :
    (Executor.execute dispatch oracles now cid locks plan_json).result =
      .ok { ok := false, error := (dispatch s).error,
            results := some (pre.map (fun p =>
              { verb := p.verb, data := (dispatch p).data })),
            clarify := none } ∧
    (Executor.execute dispatch oracles now cid locks plan_json).dispatched =
      pre ++ [s] := by
  have hbody : execute_body dispatch oracles plan_json plan =
      (pre ++ [s],
       .ok { ok := false, error := (dispatch s).error,
             results := some (pre.map (fun p =>
               { verb := p.verb, data := (dispatch p).data })),
             clarify := none }) := by
    unfold execute_body
    rw [hsteps, run_steps_first_failure dispatch pre s post hpre hfail]
  cases hsh : plan.shard with
  | none =>
    constructor <;> simp [Executor.execute, hval, hsh, hbody]
  | some sh =>
    by_cases hemp : sh = ""
    · subst hemp
      constructor <;> simp [Executor.execute, hval, hsh, hbody]
    · have hacq' := hacq sh hsh hemp
      rcases hla : locks_acquire now locks sh ("exec:" ++ cid) with ⟨l1, okb⟩
      rw [hla] at hacq'
      simp only at hacq'
      subst hacq'
      constructor <;> simp [Executor.execute, hval, hsh, hemp, hla, hbody]

/-- Witness for C2: the three-step plan `a, b, c` under a dispatcher that
fails on `b` returns only step `a`'s result with `b`'s error, and `c` is
never dispatched. -/
theorem claim_C2_witness :
    (Executor.execute exDispatchFailB exOraclesOk 0 "cid" exEmptyLocks
        exThreeStepPlan).result =
      .ok { ok := false, error := some "boom",
            results := some [{ verb := "a", data := some "a" }],
            clarify := none } ∧
    (Executor.execute exDispatchFailB exOraclesOk 0 "cid" exEmptyLocks
        exThreeStepPlan).dispatched =
      [{ verb := "a", args := [] }, { verb := "b", args := [] }] := by
  have h := claim_C2_first_failure_stops exDispatchFailB exOraclesOk 0 "cid"
    exEmptyLocks exThreeStepPlan
    { steps := [{ verb := "a", args := [] }, { verb := "b", args := [] },
        { verb := "c", args := [] }], shard := none }
    [{ verb := "a", args := [] }] { verb := "b", args := [] }
    [{ verb := "c", args := [] }] rfl rfl (by decide) (by decide)
    (fun sh hsh _ => Option.noConfusion hsh)
  exact ⟨h.1, h.2⟩

/-- C3 (code bug): with every step succeeding, a raising `detect_signals`
makes `Executor.execute` itself raise — the local `signals` is referenced by
the `set_conversation_state` call outside the `except` that swallowed the
exception — instead of returning ok=true with a generic notice, while a
raising `summarize_and_clarify` does degrade to the generic completion notice
with ok=true as the spec requires. -/
theorem claim_C3_clarify_bug :
    (Executor.execute exDispatchOk exOraclesDetectRaises 0 "cid" exEmptyLocks
        exThreeStepPlan).result = .error "UnboundLocalError: signals" ∧
    (Executor.execute exDispatchOk exOraclesSummarizeRaises 0 "cid"
        exEmptyLocks exThreeStepPlan).result =
      .ok { ok := true, error := none,
            results := some [{ verb := "a", data := some "a" },
              { verb := "b", data := some "b" },
              { verb := "c", data := some "c" }],
            clarify := some { summary := "Execution completed.",
                              clarifying_question := none,
                              clarify_error := some "llm down" } } := by
  constructor <;> rfl

/-- C5 (amended): every plan rejected by the pydantic shape validation fails
fast with `plan_invalid`: no lock operation happens, no step is dispatched,
and the lock store is returned untouched. -/
theorem claim_C5_plan_invalid_fast (dispatch : PlanStep → VerbResult)
    (oracles : ClarifyOracles) (now : Nat) (cid : String) (locks : LockState)
    (plan_json : RawPlan) (e : String)
    (hval : validate_plan plan_json = .error e) :
    Executor.execute dispatch oracles now cid locks plan_json =
      { locks := locks, lock_trace := [], dispatched := [],
        result := .ok { ok := false, error := some ("plan_invalid:" ++ e),
                        results := none, clarify := none } } := by
  simp [Executor.execute, hval]

/-- Witness for C5 (amended): a step with a missing `args` field is rejected
before any lock or dispatch. -/
theorem claim_C5_witness :
    Executor.execute exDispatchOk exOraclesOk 0 "cid" exEmptyLocks
        exMissingArgsPlan =
      { locks := exEmptyLocks, lock_trace := [], dispatched := [],
        result := .ok { ok := false,
                        error := some "plan_invalid:steps.args: field required",
                        results := none, clarify := none } } :=
  claim_C5_plan_invalid_fast exDispatchOk exOraclesOk 0 "cid" exEmptyLocks
    exMissingArgsPlan "steps.args: field required" rfl

/-- C5 counterexample: a plan step with an *empty* verb name passes pydantic
validation, so the executor acquires (and later releases) the shard lock and
dispatches the step — it does not return `plan_invalid` and the lock is
touched. -/
theorem claim_C5_counterexample :
    validate_plan exEmptyVerbPlan =
      .ok { steps := [{ verb := "", args := [] }], shard := some "s1" } ∧
    (Executor.execute exDispatchOk exOraclesOk 0 "cid" exEmptyLocks
        exEmptyVerbPlan).lock_trace =
      [.acquired "s1" "exec:cid" true, .released "s1" "exec:cid"] ∧
    (Executor.execute exDispatchOk exOraclesOk 0 "cid" exEmptyLocks
        exEmptyVerbPlan).dispatched = [{ verb := "", args := [] }] ∧
    (Executor.execute exDispatchOk exOraclesOk 0 "cid" exEmptyLocks
        exEmptyVerbPlan).result =
      .ok { ok := true, error := none,
            results := some [{ verb := "", data := some "" }],
            clarify := some exClarify } := by
  exact ⟨rfl, rfl, rfl, rfl⟩

end ChurchBrain
